import Mathlib

/-
  Verification development for the Meadowlark audio-engine control plane.

  Shallow embedding of:
  - `src/backend/project_interface/mod.rs` (ProjectInterface and its track
    bookkeeping: index table + parallel vectors + graph edits), and
  - `src/backend/pcm/mod.rs` (StereoPcm).

  The graph-compilation collaborator (`GraphInterface`), the timeline track
  node constructor (`TimelineTrackNode::new`) and the resource loader are not
  part of the available sources; they are modelled from the specification's
  interface contracts (spec sections 4.3, 4.4 and 6) and are marked as such in
  their doc comments.

  Conventions: Rust `Vec` becomes `List`; `FnvHashMap<String, usize>` becomes
  an association list with HashMap semantics for get/insert/remove/contains
  (the code never iterates the map, so ordering is irrelevant); a Rust panic
  (out-of-bounds index or `.unwrap()` on a failed operation) is made explicit
  in the result type.
-/

namespace Meadowlark

/-- Save state of one audio clip (`AudioClipSaveState`). The type lives in the
timeline module, which is outside the available sources; its fields are taken
from the construction site in `ProjectSaveState::test` and the spec's Clip
description (placement, source path, gain). No operation verified here reads
the numeric fields. -/
structure AudioClipSaveState where
  id : String
  pcm_path : String
  timeline_start : Float
  duration : Float
  clip_start_offset : Float
  clip_gain_db : Float
deriving Repr

/-- Save state of one timeline track (`TimelineTrackSaveState`): its unique
string ID plus its clips. -/
structure TimelineTrackSaveState where
  id : String
  audio_clips : List AudioClipSaveState
deriving Repr

/-- `ProjectSaveState` restricted to the field the verified operations touch
(`timeline_tracks`); transport, tempo map and declick time are never read or
written by the track bookkeeping operations. -/
structure ProjectSaveState where
  timeline_tracks : List TimelineTrackSaveState
deriving Repr

/-- Modelled from the spec: the resource-load error taxonomy of section 4.3
(`NotFound`, `UnsupportedFormat`, `DecodeFailure`, `IoError`); the
`ResourceLoadError` type itself lives in the resource_loader module, outside
the available sources. -/
inductive ResourceLoadError where
  | notFound (path : String)
  | unsupportedFormat (path : String)
  | decodeFailure (reason : String)
  | ioError (reason : String)
deriving Repr, DecidableEq

/-- Modelled from the spec: an opaque render-domain handle for a timeline
track's graph node (`TimelineTrackHandle`, outside the available sources).
The tag records which track's node the handle controls. -/
structure TimelineTrackHandle where
  for_track_id : String
deriving Repr, DecidableEq

/-- Port type used by the track-to-mixer connections (`PortType::StereoAudio`). -/
inductive PortType where
  | stereoAudio
deriving Repr, DecidableEq

/-- Modelled from the spec: the two node kinds the orchestrator inserts — a
timeline track node and the master stereo mix node, the latter a pure function
of its input count (spec section 9: mix node arity). -/
inductive GNode where
  | timelineTrack (save : TimelineTrackSaveState)
  | stereoMix (num_inputs : Nat)
deriving Repr

/-- One port connection, as passed to `add_port_connection`. -/
structure PortConnection where
  port_type : PortType
  from_id : Nat
  from_port : Nat
  to_id : Nat
  to_port : Nat
deriving Repr

/-- Modelled from the spec: the graph-compilation collaborator's state (spec
section 6) — nodes keyed by `NodeID`, the connection list, and the next fresh
node ID. -/
structure Graph where
  nodes : List (Nat × GNode)
  connections : List PortConnection
  next_id : Nat
deriving Repr

/-- Number of audio input ports of a node: a track node has none, the mix node
has one per track. -/
def GNode.in_ports : GNode → Nat
  | .timelineTrack _ => 0
  | .stereoMix n => n

/-- Number of audio output ports of a node: both node kinds expose one stereo
output. -/
def GNode.out_ports : GNode → Nat
  | .timelineTrack _ => 1
  | .stereoMix _ => 1

def Graph.find_node (g : Graph) (id : Nat) : Option GNode :=
  (g.nodes.find? (fun p => p.1 == id)).map (fun p => p.2)

def Graph.contains_node (g : Graph) (id : Nat) : Bool :=
  g.nodes.any (fun p => p.1 == id)

/-- Modelled from the spec: `add_node(node) -> NodeId` — inserts the node under
a fresh ID and returns it. -/
def Graph.add_new_node (g : Graph) (node : GNode) : Nat × Graph :=
  (g.next_id,
   { nodes := g.nodes ++ [(g.next_id, node)],
     connections := g.connections,
     next_id := g.next_id + 1 })

/-- Modelled from the spec: `replace_node(id, node) -> Result<(), NotFoundError>`
— replaces the node stored under `id`, failing if absent. -/
def Graph.replace_node (g : Graph) (id : Nat) (node : GNode) : Option Graph :=
  if g.contains_node id then
    some { g with nodes := g.nodes.map (fun p => if p.1 == id then (p.1, node) else p) }
  else
    none

/-- Modelled from the spec: `remove_node(id) -> Result<(), NotFoundError>` —
removes the node and disconnects it (all connections touching it). -/
def Graph.remove_node (g : Graph) (id : Nat) : Option Graph :=
  if g.contains_node id then
    some { nodes := g.nodes.filter (fun p => p.1 != id),
           connections := g.connections.filter
             (fun c => c.from_id != id && c.to_id != id),
           next_id := g.next_id }
  else
    none

/-- Modelled from the spec: `connect(port_type, from_id, from_port, to_id,
to_port) -> Result<(), ConnectionError>` — both endpoints must exist and the
ports must be within the nodes' arities (a track can be connected to a mixer
input only if the mixer has that port). -/
def Graph.add_port_connection (g : Graph) (pt : PortType)
    (from_id from_port to_id to_port : Nat) : Option Graph :=
  match g.find_node from_id, g.find_node to_id with
  | some fn, some tn =>
    if from_port < fn.out_ports && to_port < tn.in_ports then
      some { g with connections :=
          g.connections ++ [⟨pt, from_id, from_port, to_id, to_port⟩] }
    else
      none
  | _, _ => none

/-- All node IDs and connection endpoints are below the fresh-ID counter; holds
for every graph grown only through the operations above. -/
def Graph.wf (g : Graph) : Bool :=
  g.nodes.all (fun p => p.1 < g.next_id) &&
  g.connections.all (fun c => c.from_id < g.next_id && c.to_id < g.next_id)

/-- Association-list reading of `FnvHashMap<String, usize>::get`. -/
def mapGet (m : List (String × Nat)) (k : String) : Option Nat :=
  (m.find? (fun p => p.1 == k)).map (fun p => p.2)

/-- Association-list reading of `FnvHashMap::contains_key`. -/
def mapContains (m : List (String × Nat)) (k : String) : Bool :=
  m.any (fun p => p.1 == k)

/-- Association-list reading of `FnvHashMap::insert`: replaces the value under
an existing key, else adds the binding. -/
def mapInsert (m : List (String × Nat)) (k : String) (v : Nat) :
    List (String × Nat) :=
  if mapContains m k then
    m.map (fun p => if p.1 == k then (k, v) else p)
  else
    m ++ [(k, v)]

/-- Association-list reading of `FnvHashMap::remove`: returns the removed value
(if any) together with the map without the key. -/
def mapRemove (m : List (String × Nat)) (k : String) :
    Option Nat × List (String × Nat) :=
  (mapGet m k, m.filter (fun p => p.1 != k))

/-- The environment standing for the resource loader: which load errors the
clips of a given track produce. C7's statements quantify over it, so they hold
for every possible load outcome. -/
def LoaderEnv : Type := TimelineTrackSaveState → List ResourceLoadError

/-- Modelled from the spec: `TimelineTrackNode::new` (timeline module, outside
the available sources) builds the track's graph node and render handle and
returns the non-fatal resource-load errors of its clips — it never fails
(spec section 7: load errors are warnings, not aborts). -/
def TimelineTrackNode.new (env : LoaderEnv) (track : TimelineTrackSaveState) :
    GNode × TimelineTrackHandle × List ResourceLoadError :=
  (GNode.timelineTrack track, { for_track_id := track.id }, env track)

/-- The `ProjectInterface` fields the verified operations touch. The resource
loader, transport handle, sample rate, collector handle and running flag are
omitted: no verified operation reads them (the loader is only threaded through
to `TimelineTrackNode::new`, which the `LoaderEnv` argument stands for). -/
structure ProjectInterface where
  save_state : ProjectSaveState
  graph : Graph
  timeline_track_indexes : List (String × Nat)
  timeline_track_handles : List TimelineTrackHandle
  timeline_track_node_ids : List Nat
  master_track_mix_in_node_id : Nat
deriving Repr

/-- Result of a `&mut self` operation: the mutated state on `Ok` and on `Err`
(the source's early `return Err(())` leaves `self` untouched, so the error
state is the input state), or a Rust panic (out-of-bounds `Vec` index or
`.unwrap()` failure). -/
inductive OpResult (α : Type) where
  | panic
  | err (state : ProjectInterface)
  | ok (value : α) (state : ProjectInterface)

/-- Result of `timeline_track` / `timeline_track_mut`: `None`, the borrowed
handle and save state, or a panic from an out-of-bounds stored index. -/
inductive LookupResult where
  | panic
  | notFound
  | found (handle : TimelineTrackHandle) (save : TimelineTrackSaveState)

/-- `ProjectInterface::timeline_track` (mod.rs lines 207-219): look the ID up
in the index table and index both parallel vectors with the stored index. -/
def ProjectInterface.timeline_track (p : ProjectInterface) (id : String) :
    LookupResult :=
  match mapGet p.timeline_track_indexes id with
  | some index =>
    match p.timeline_track_handles[index]?,
          p.save_state.timeline_tracks[index]? with
    | some h, some s => .found h s
    | _, _ => .panic
  | none => .notFound

/-- `ProjectInterface::timeline_track_mut` (mod.rs lines 222-239): same lookup
as `timeline_track` (the extra resource-loader borrow it returns is not part of
the model). -/
def ProjectInterface.timeline_track_mut (p : ProjectInterface) (id : String) :
    LookupResult :=
  match mapGet p.timeline_track_indexes id with
  | some index =>
    match p.timeline_track_handles[index]?,
          p.save_state.timeline_tracks[index]? with
    | some h, some s => .found h s
    | _, _ => .panic
  | none => .notFound

/-- `ProjectInterface::set_timeline_track_id` (mod.rs lines 244-261): reject a
taken new ID; move the index-table entry from the old ID to the new one and
rewrite the save state's `id` field at the stored index. -/
def ProjectInterface.set_timeline_track_id (p : ProjectInterface)
    (old_id : String) (new_id : String) : OpResult Unit :=
  if mapContains p.timeline_track_indexes new_id then
    .err p
  else
    match mapRemove p.timeline_track_indexes old_id with
    | (some index, m) =>
      let m2 := mapInsert m new_id index
      match p.save_state.timeline_tracks[index]? with
      | some t =>
        .ok () { p with
          timeline_track_indexes := m2,
          save_state := { timeline_tracks :=
            p.save_state.timeline_tracks.set index { t with id := new_id } } }
      | none => .panic
    | (none, _) => .err p

/-- `ProjectInterface::add_timeline_track` (mod.rs lines 263-328): reject a
duplicate ID; record the new track at index `timeline_tracks.len()` (the index
is inserted twice, as in the source); then in one graph mutation add the track
node, replace the master mix node with one of the new total arity, and connect
the track's output to the mixer's last input. -/
def ProjectInterface.add_timeline_track (env : LoaderEnv)
    (p : ProjectInterface) (track : TimelineTrackSaveState) :
    OpResult (List ResourceLoadError) :=
  if mapContains p.timeline_track_indexes track.id then
    .err p
  else
    let timeline_track_index := p.save_state.timeline_tracks.length
    let m1 := mapInsert p.timeline_track_indexes track.id timeline_track_index
    let (node, handle, load_errors) := TimelineTrackNode.new env track
    let m2 := mapInsert m1 track.id timeline_track_index
    let handles := p.timeline_track_handles ++ [handle]
    let tracks := p.save_state.timeline_tracks ++ [track]
    let num_timeline_tracks := tracks.length
    let (n_id, g1) := p.graph.add_new_node node
    match g1.replace_node p.master_track_mix_in_node_id
        (GNode.stereoMix num_timeline_tracks) with
    | none => .panic
    | some g2 =>
      match g2.add_port_connection PortType.stereoAudio n_id 0
          p.master_track_mix_in_node_id (num_timeline_tracks - 1) with
      | none => .panic
      | some g3 =>
        .ok load_errors
          { save_state := { timeline_tracks := tracks },
            graph := g3,
            timeline_track_indexes := m2,
            timeline_track_handles := handles,
            timeline_track_node_ids := p.timeline_track_node_ids ++ [n_id],
            master_track_mix_in_node_id := p.master_track_mix_in_node_id }

/-- `ProjectInterface::remove_timeline_track` (mod.rs lines 330-345): take the
stored index out of the index table, `Vec::remove` that position from the three
parallel vectors, and remove the corresponding node from the graph. Surviving
index-table entries are NOT re-indexed. -/
def ProjectInterface.remove_timeline_track (p : ProjectInterface)
    (id : String) : OpResult Unit :=
  match mapRemove p.timeline_track_indexes id with
  | (some index, m) =>
    match p.save_state.timeline_tracks[index]?,
          p.timeline_track_handles[index]?,
          p.timeline_track_node_ids[index]? with
    | some _, some _, some node_id =>
      match p.graph.remove_node node_id with
      | some g =>
        .ok () { save_state := { timeline_tracks :=
                   p.save_state.timeline_tracks.eraseIdx index },
                 graph := g,
                 timeline_track_indexes := m,
                 timeline_track_handles := p.timeline_track_handles.eraseIdx index,
                 timeline_track_node_ids := p.timeline_track_node_ids.eraseIdx index,
                 master_track_mix_in_node_id := p.master_track_mix_in_node_id }
      | none => .panic
    | _, _, _ => .panic
  | (none, _) => .err p

/-- The per-track loop of `ProjectInterface::new` (mod.rs lines 140-160): for
each save-state track in order, build its node (collecting load errors), add it
to the graph, and record index, handle and node ID. -/
def buildTimelineTracks (env : LoaderEnv) :
    List TimelineTrackSaveState → Nat → Graph → List (String × Nat) →
    List TimelineTrackHandle → List Nat → List ResourceLoadError →
    List (String × Nat) × List TimelineTrackHandle × List Nat × Graph ×
      List ResourceLoadError
  | [], _, g, m, hs, ns, errs => (m, hs, ns, g, errs)
  | t :: rest, idx, g, m, hs, ns, errs =>
    let (node, handle, res) := TimelineTrackNode.new env t
    let (node_id, g2) := g.add_new_node node
    buildTimelineTracks env rest (idx + 1) g2 (mapInsert m t.id idx)
      (hs ++ [handle]) (ns ++ [node_id]) (errs ++ res)

/-- The connection loop of `ProjectInterface::new` (mod.rs lines 172-176):
connect each track node's output 0 to master-mix input `i`, unwrapping each
result. -/
def connectTracks : List (Nat × Nat) → Nat → Graph → Option Graph
  | [], _, g => some g
  | (i, node_id) :: rest, master, g =>
    match g.add_port_connection PortType.stereoAudio node_id 0 master i with
    | some g2 => connectTracks rest master g2
    | none => none

/-- `ProjectInterface::new` (mod.rs lines 109-204): build every save-state
track, then the master mix node with one input per track, then connect each
track to it; returns the interface and all collected load errors, or `none`
where the source would panic on a failed connection unwrap. The graph starts
empty (the spec gives the graph collaborator no initial nodes). -/
def ProjectInterface.new (env : LoaderEnv) (save_state : ProjectSaveState) :
    Option (ProjectInterface × List ResourceLoadError) :=
  let init : Graph := { nodes := [], connections := [], next_id := 0 }
  match buildTimelineTracks env save_state.timeline_tracks 0 init [] [] [] [] with
  | (m, hs, ns, g, load_errors) =>
    let (master_id, g2) := g.add_new_node (GNode.stereoMix hs.length)
    match connectTracks ns.enum master_id g2 with
    | some g3 =>
      some ({ save_state := save_state,
              graph := g3,
              timeline_track_indexes := m,
              timeline_track_handles := hs,
              timeline_track_node_ids := ns,
              master_track_mix_in_node_id := master_id }, load_errors)
    | none => none

/-! Concrete reachable states used by the counterexamples: starting from a
newly constructed empty project, tracks are added and removed through the
operations above; each `reach_*` lemma certifies one step by evaluation. -/

/-- Loader environment in which every resource load succeeds. -/
def env0 : LoaderEnv := fun _ => []

def trackA : TimelineTrackSaveState := { id := "Track A", audio_clips := [] }

def trackB : TimelineTrackSaveState := { id := "Track B", audio_clips := [] }

def trackC : TimelineTrackSaveState := { id := "Track C", audio_clips := [] }

/-- The state of a newly constructed empty project. -/
def p_empty : ProjectInterface :=
  { save_state := { timeline_tracks := [] },
    graph := { nodes := [(0, GNode.stereoMix 0)], connections := [], next_id := 1 },
    timeline_track_indexes := [],
    timeline_track_handles := [],
    timeline_track_node_ids := [],
    master_track_mix_in_node_id := 0 }

/-- State after adding `Track A` to the empty project. -/
def p_A : ProjectInterface :=
  { save_state := { timeline_tracks := [trackA] },
    graph := { nodes := [(0, GNode.stereoMix 1), (1, GNode.timelineTrack trackA)],
               connections := [⟨PortType.stereoAudio, 1, 0, 0, 0⟩],
               next_id := 2 },
    timeline_track_indexes := [("Track A", 0)],
    timeline_track_handles := [{ for_track_id := "Track A" }],
    timeline_track_node_ids := [1],
    master_track_mix_in_node_id := 0 }

/-- State after adding `Track A` then `Track B`. -/
def p_AB : ProjectInterface :=
  { save_state := { timeline_tracks := [trackA, trackB] },
    graph := { nodes := [(0, GNode.stereoMix 2), (1, GNode.timelineTrack trackA),
                         (2, GNode.timelineTrack trackB)],
               connections := [⟨PortType.stereoAudio, 1, 0, 0, 0⟩,
                               ⟨PortType.stereoAudio, 2, 0, 0, 1⟩],
               next_id := 3 },
    timeline_track_indexes := [("Track A", 0), ("Track B", 1)],
    timeline_track_handles := [{ for_track_id := "Track A" },
                               { for_track_id := "Track B" }],
    timeline_track_node_ids := [1, 2],
    master_track_mix_in_node_id := 0 }

/-- State after adding `Track A` and `Track B` and then removing `Track A`:
the index table still maps `Track B` to position 1, but the parallel vectors
now have length 1 with `Track B`'s data at position 0. -/
def p_bad : ProjectInterface :=
  { save_state := { timeline_tracks := [trackB] },
    graph := { nodes := [(0, GNode.stereoMix 2), (2, GNode.timelineTrack trackB)],
               connections := [⟨PortType.stereoAudio, 2, 0, 0, 1⟩],
               next_id := 3 },
    timeline_track_indexes := [("Track B", 1)],
    timeline_track_handles := [{ for_track_id := "Track B" }],
    timeline_track_node_ids := [2],
    master_track_mix_in_node_id := 0 }

/-- State after adding `Track A`, `Track B`, `Track C`. -/
def p_ABC : ProjectInterface :=
  { save_state := { timeline_tracks := [trackA, trackB, trackC] },
    graph := { nodes := [(0, GNode.stereoMix 3), (1, GNode.timelineTrack trackA),
                         (2, GNode.timelineTrack trackB),
                         (3, GNode.timelineTrack trackC)],
               connections := [⟨PortType.stereoAudio, 1, 0, 0, 0⟩,
                               ⟨PortType.stereoAudio, 2, 0, 0, 1⟩,
                               ⟨PortType.stereoAudio, 3, 0, 0, 2⟩],
               next_id := 4 },
    timeline_track_indexes := [("Track A", 0), ("Track B", 1), ("Track C", 2)],
    timeline_track_handles := [{ for_track_id := "Track A" },
                               { for_track_id := "Track B" },
                               { for_track_id := "Track C" }],
    timeline_track_node_ids := [1, 2, 3],
    master_track_mix_in_node_id := 0 }

/-- State after adding three tracks and removing `Track A`: `Track B` and
`Track C` keep their old indexes 1 and 2 although their data now sits at
positions 0 and 1. -/
def p_bad3 : ProjectInterface :=
  { save_state := { timeline_tracks := [trackB, trackC] },
    graph := { nodes := [(0, GNode.stereoMix 3), (2, GNode.timelineTrack trackB),
                         (3, GNode.timelineTrack trackC)],
               connections := [⟨PortType.stereoAudio, 2, 0, 0, 1⟩,
                               ⟨PortType.stereoAudio, 3, 0, 0, 2⟩],
               next_id := 4 },
    timeline_track_indexes := [("Track B", 1), ("Track C", 2)],
    timeline_track_handles := [{ for_track_id := "Track B" },
                               { for_track_id := "Track C" }],
    timeline_track_node_ids := [2, 3],
    master_track_mix_in_node_id := 0 }

/-- State after `remove_timeline_track("Track B")` on `p_bad3`: the call
reported success but erased `Track C`'s save state, handle and node (stale
index 1), leaving `Track B`'s save state in place. -/
def q5 : ProjectInterface :=
  { save_state := { timeline_tracks := [trackB] },
    graph := { nodes := [(0, GNode.stereoMix 3), (2, GNode.timelineTrack trackB)],
               connections := [⟨PortType.stereoAudio, 2, 0, 0, 1⟩],
               next_id := 4 },
    timeline_track_indexes := [("Track C", 2)],
    timeline_track_handles := [{ for_track_id := "Track B" }],
    timeline_track_node_ids := [2],
    master_track_mix_in_node_id := 0 }

theorem reach_empty : ProjectInterface.new env0 { timeline_tracks := [] }
    = some (p_empty, []) := rfl

theorem reach_A : p_empty.add_timeline_track env0 trackA = .ok [] p_A := rfl

theorem reach_AB : p_A.add_timeline_track env0 trackB = .ok [] p_AB := rfl

theorem reach_bad : p_AB.remove_timeline_track ("Track A") = .ok () p_bad := rfl

theorem reach_ABC : p_AB.add_timeline_track env0 trackC = .ok [] p_ABC := rfl

theorem reach_bad3 : p_ABC.remove_timeline_track ("Track A") = .ok () p_bad3 := rfl

/-- C1: the claimed invariant — every ID in the index table maps to the
position holding that track's handle, node ID and save state — is broken by
the code: in the reachable state obtained by adding `Track A` and `Track B` to
a new empty project and then removing `Track A`, the index table still maps
`Track B` to position 1 while `Track B`'s handle, node ID and save state sit
at position 0 of length-1 vectors (`remove_timeline_track` never re-indexes
the surviving entries). -/
theorem remove_timeline_track_breaks_parallel_index :
    ProjectInterface.new env0 { timeline_tracks := [] } = some (p_empty, [])
    ∧ p_empty.add_timeline_track env0 trackA = .ok [] p_A
    ∧ p_A.add_timeline_track env0 trackB = .ok [] p_AB
    ∧ p_AB.remove_timeline_track ("Track A") = .ok () p_bad
    ∧ mapGet p_bad.timeline_track_indexes ("Track B") = some 1
    ∧ p_bad.save_state.timeline_tracks = [trackB]
    ∧ p_bad.timeline_track_handles.length = 1
    ∧ p_bad.timeline_track_node_ids.length = 1 :=
  ⟨rfl, rfl, rfl, rfl, rfl, rfl, rfl, rfl⟩

/-- C4 counterexample: in the reachable state `p_bad` (add `Track A`, add
`Track B`, remove `Track A`), the ID `Track B` is present in the index table,
yet `timeline_track` and `timeline_track_mut` index the parallel vectors out
of bounds (stored index 1 against length-1 vectors), i.e. the source panics
instead of returning that track's handle and save state. -/
theorem timeline_track_panics_on_reachable_state :
    ProjectInterface.new env0 { timeline_tracks := [] } = some (p_empty, [])
    ∧ p_empty.add_timeline_track env0 trackA = .ok [] p_A
    ∧ p_A.add_timeline_track env0 trackB = .ok [] p_AB
    ∧ p_AB.remove_timeline_track ("Track A") = .ok () p_bad
    ∧ mapContains p_bad.timeline_track_indexes ("Track B") = true
    ∧ p_bad.timeline_track ("Track B") = LookupResult.panic
    ∧ p_bad.timeline_track_mut ("Track B") = LookupResult.panic :=
  ⟨rfl, rfl, rfl, rfl, rfl, rfl, rfl⟩

/-- C5 counterexample: in the reachable state `p_bad3` (add `Track A`,
`Track B`, `Track C`, then remove `Track A`), `remove_timeline_track("Track B")`
returns `Ok` but erases `Track C`'s save state, handle and graph node (through
the stale stored index 1) while `Track B`'s save state stays in the project —
the call does not remove that track's entries as claimed. -/
theorem remove_timeline_track_wrong_track_on_stale_index :
    ProjectInterface.new env0 { timeline_tracks := [] } = some (p_empty, [])
    ∧ p_empty.add_timeline_track env0 trackA = .ok [] p_A
    ∧ p_A.add_timeline_track env0 trackB = .ok [] p_AB
    ∧ p_AB.add_timeline_track env0 trackC = .ok [] p_ABC
    ∧ p_ABC.remove_timeline_track ("Track A") = .ok () p_bad3
    ∧ mapContains p_bad3.timeline_track_indexes ("Track B") = true
    ∧ p_bad3.save_state.timeline_tracks = [trackB, trackC]
    ∧ p_bad3.remove_timeline_track ("Track B") = .ok () q5
    ∧ q5.save_state.timeline_tracks = [trackB]
    ∧ q5.timeline_track_handles = [{ for_track_id := "Track B" }]
    ∧ q5.graph.contains_node 3 = false :=
  ⟨rfl, rfl, rfl, rfl, rfl, rfl, rfl, rfl, rfl, rfl, rfl⟩

/-- `StereoPcm` (pcm/mod.rs lines 40-83): two sample channels plus a sample
rate. Constructed only through `StereoPcm.new`; no operation mutates the
channels after construction, so a constructed value keeps its channel lengths
for its whole lifetime. -/
structure StereoPcm where
  left : List Float
  right : List Float
  sample_rate : Float

/-- `StereoPcm::new` (pcm/mod.rs lines 49-57): `assert_eq!(left.len(),
right.len())` panics on unequal channels (`none`), otherwise stores the two
channels unchanged. -/
def StereoPcm.new (left right : List Float) (sample_rate : Float) :
    Option StereoPcm :=
  if left.length = right.length then
    some { left := left, right := right, sample_rate := sample_rate }
  else
    none

/-- `StereoPcm::len` (pcm/mod.rs lines 74-77): the length of the left channel. -/
def StereoPcm.len (pcm : StereoPcm) : Nat :=
  pcm.left.length

/-- `StereoPcm::left_right` (pcm/mod.rs lines 69-72). -/
def StereoPcm.left_right (pcm : StereoPcm) : List Float × List Float :=
  (pcm.left, pcm.right)

/-- C10: `StereoPcm::new` succeeds exactly when the two channels have equal
length (the `assert_eq!` panics otherwise), and every value it constructs has
`left()` and `right()` of equal length with `len()` equal to that common
length; the channels are stored unchanged and nothing mutates them afterwards. -/
theorem stereo_pcm_equal_channels (left right : List Float)
    (sample_rate : Float) :
    ((StereoPcm.new left right sample_rate).isSome
       ↔ left.length = right.length)
    ∧ ∀ pcm, StereoPcm.new left right sample_rate = some pcm →
        pcm.left.length = pcm.right.length
        ∧ pcm.len = pcm.left.length
        ∧ pcm.left_right = (left, right) := by
  unfold StereoPcm.new
  by_cases h : left.length = right.length
  · rw [if_pos h]
    refine ⟨by simp [h], ?_⟩
    intro pcm hp
    cases hp
    exact ⟨h, rfl, rfl⟩
  · rw [if_neg h]
    refine ⟨by simp [h], ?_⟩
    intro pcm hp
    cases hp

/-- C10 witness: instantiating the invariant at the concrete channels
`[0.5]` and `[0.25]`. -/
theorem stereo_pcm_equal_channels_witness :
    StereoPcm.new [0.5] [0.25] 44100
      = some { left := [0.5], right := [0.25], sample_rate := 44100 }
    ∧ ({ left := [0.5], right := [0.25], sample_rate := 44100 } : StereoPcm).len
      = 1 :=
  ⟨rfl,
   ((stereo_pcm_equal_channels [0.5] [0.25] 44100).2 _ rfl).2.1⟩

/-- C2: adding a track whose ID is already in the index table returns the
conflict error before any field of the project state (index table, parallel
vectors, save state, graph) is touched — the result carries the input state
unchanged. -/
theorem add_timeline_track_duplicate_id_err (env : LoaderEnv)
    (p : ProjectInterface) (track : TimelineTrackSaveState)
    (h : mapContains p.timeline_track_indexes track.id = true) :
    p.add_timeline_track env track = .err p := by
  unfold ProjectInterface.add_timeline_track
  rw [h]
  rfl

/-- C2 witness: adding `Track A` again to the one-track state `p_A` is
rejected and leaves the state untouched. -/
theorem add_timeline_track_duplicate_id_err_witness :
    mapContains p_A.timeline_track_indexes trackA.id = true
    ∧ p_A.add_timeline_track env0 trackA = OpResult.err p_A :=
  ⟨by decide, add_timeline_track_duplicate_id_err env0 p_A trackA (by decide)⟩

/-! Helper lemmas about the graph collaborator, shared by the theorems about
`add_timeline_track`, `remove_timeline_track` and `ProjectInterface::new`. -/

theorem GNode.out_ports_pos (nd : GNode) : 0 < nd.out_ports := by
  cases nd <;> simp [GNode.out_ports]

theorem contains_node_add_new_node (g : Graph) (node : GNode) (id : Nat)
    (h : g.contains_node id = true) :
    (g.add_new_node node).2.contains_node id = true := by
  unfold Graph.contains_node Graph.add_new_node at *
  simp only [List.any_append, h, Bool.true_or]

theorem find_node_of_contains (g : Graph) (id : Nat)
    (h : g.contains_node id = true) : ∃ nd, g.find_node id = some nd := by
  unfold Graph.contains_node at h
  unfold Graph.find_node
  have hs : (g.nodes.find? (fun p => p.1 == id)).isSome = true :=
    List.find?_isSome.2 (List.any_eq_true.1 h)
  cases heq : g.nodes.find? (fun p => p.1 == id) with
  | none => rw [heq] at hs; cases hs
  | some x => exact ⟨x.2, rfl⟩

theorem find?_key_map_replace (l : List (Nat × GNode)) (id : Nat) (nd : GNode)
    (h : l.any (fun p => p.1 == id) = true) :
    ((l.map (fun p => if p.1 == id then (p.1, nd) else p)).find?
        (fun p => p.1 == id)).map (fun p => p.2) = some nd := by
  induction l with
  | nil => cases h
  | cons hd tl ih =>
    rw [List.any_cons] at h
    by_cases hh : (hd.1 == id) = true
    · have hid : hd.1 = id := by simpa using hh
      simp [List.find?_cons, hid]
    · rw [Bool.not_eq_true] at hh
      have h2 : tl.any (fun p => p.1 == id) = true := by
        rw [hh] at h
        simpa using h
      simp only [List.map_cons, hh, Bool.false_eq_true, if_false,
        List.find?_cons, hh]
      exact ih h2

/-- `find?` by key commutes with mapping a key-preserving function. -/
theorem find?_key_map_keep {κ ν : Type} [BEq κ] (l : List (κ × ν))
    (f : κ × ν → κ × ν) (hf : ∀ x, (f x).1 = x.1) (k : κ) :
    (l.map f).find? (fun p => p.1 == k)
      = (l.find? (fun p => p.1 == k)).map f := by
  induction l with
  | nil => rfl
  | cons hd tl ih =>
    by_cases hh : (hd.1 == k) = true
    · have hfh : ((f hd).1 == k) = true := by rw [hf hd]; exact hh
      simp [List.find?_cons, hh, hfh]
    · rw [Bool.not_eq_true] at hh
      have hfh : ((f hd).1 == k) = false := by rw [hf hd]; exact hh
      simp only [List.map_cons, List.find?_cons, hh, hfh]
      exact ih

theorem find_node_replace_self (g g2 : Graph) (id : Nat) (nd : GNode)
    (h : g.replace_node id nd = some g2) : g2.find_node id = some nd := by
  unfold Graph.replace_node at h
  by_cases hc : g.contains_node id = true
  · rw [hc] at h
    simp only [if_true, Option.some_inj] at h
    subst h
    unfold Graph.find_node
    unfold Graph.contains_node at hc
    have := find?_key_map_replace g.nodes id nd hc
    simpa using this
  · rw [Bool.not_eq_true] at hc
    rw [hc] at h
    cases h

theorem replace_node_parts (g g2 : Graph) (id : Nat) (nd : GNode)
    (h : g.replace_node id nd = some g2) :
    g2.nodes = g.nodes.map (fun p => if p.1 == id then (p.1, nd) else p)
    ∧ g2.connections = g.connections ∧ g2.next_id = g.next_id := by
  unfold Graph.replace_node at h
  by_cases hc : g.contains_node id = true
  · rw [hc] at h
    simp only [if_true, Option.some_inj] at h
    subst h
    exact ⟨rfl, rfl, rfl⟩
  · rw [Bool.not_eq_true] at hc
    rw [hc] at h
    cases h

theorem find?_key_append_fresh (l : List (Nat × GNode)) (n : Nat) (nd : GNode)
    (h : ∀ p ∈ l, p.1 < n) :
    (l ++ [(n, nd)]).find? (fun p => p.1 == n) = some (n, nd) := by
  rw [List.find?_append]
  have hnone : l.find? (fun p => p.1 == n) = none :=
    List.find?_eq_none.2 (fun x hx => by
      simp only [beq_iff_eq]
      exact Nat.ne_of_lt (h x hx))
  rw [hnone]
  simp [List.find?_cons]

theorem graph_wf_node_lt (g : Graph) (hwf : g.wf = true) :
    ∀ p ∈ g.nodes, p.1 < g.next_id := by
  unfold Graph.wf at hwf
  rw [Bool.and_eq_true] at hwf
  intro p hp
  have := List.all_eq_true.1 hwf.1 p hp
  simpa using this

theorem add_port_connection_eq (g : Graph) (pt : PortType)
    (fi fp ti tp : Nat) {fn tn : GNode}
    (hf : g.find_node fi = some fn) (ht : g.find_node ti = some tn)
    (hfp : fp < fn.out_ports) (htp : tp < tn.in_ports) :
    g.add_port_connection pt fi fp ti tp
      = some { g with connections := g.connections ++ [⟨pt, fi, fp, ti, tp⟩] } := by
  unfold Graph.add_port_connection
  rw [hf, ht]
  have hc : (fp < fn.out_ports && tp < tn.in_ports) = true := by
    simp [hfp, htp]
  simp [hc]

theorem graph_wf_conn_lt (g : Graph) (hwf : g.wf = true) :
    ∀ c ∈ g.connections, c.from_id < g.next_id ∧ c.to_id < g.next_id := by
  unfold Graph.wf at hwf
  rw [Bool.and_eq_true] at hwf
  intro c hc
  have := List.all_eq_true.1 hwf.2 c hc
  rw [Bool.and_eq_true] at this
  exact ⟨by simpa using this.1, by simpa using this.2⟩

/-- The state of the graph right after the mixer replacement inside a
successful `add_timeline_track`, and the final result of the call: the new
node is added under the fresh ID, the mixer is rebuilt to the new track count,
and only then is the single connection made, at mixer input `count - 1`. -/
theorem add_timeline_track_eq (env : LoaderEnv) (p : ProjectInterface)
    (track : TimelineTrackSaveState)
    (hfresh : mapContains p.timeline_track_indexes track.id = false)
    (hmaster : p.graph.contains_node p.master_track_mix_in_node_id = true)
    (hwf : p.graph.wf = true) :
    ∃ g2 g3,
      ((p.graph.add_new_node (GNode.timelineTrack track)).2).replace_node
          p.master_track_mix_in_node_id
          (GNode.stereoMix (p.save_state.timeline_tracks.length + 1)) = some g2
      ∧ g2.find_node p.master_track_mix_in_node_id
          = some (GNode.stereoMix (p.save_state.timeline_tracks.length + 1))
      ∧ g2.connections = p.graph.connections
      ∧ g2.add_port_connection PortType.stereoAudio p.graph.next_id 0
          p.master_track_mix_in_node_id p.save_state.timeline_tracks.length
          = some g3
      ∧ g3.connections = p.graph.connections
          ++ [⟨PortType.stereoAudio, p.graph.next_id, 0,
               p.master_track_mix_in_node_id,
               p.save_state.timeline_tracks.length⟩]
      ∧ p.add_timeline_track env track = .ok (env track)
          { save_state := { timeline_tracks :=
              p.save_state.timeline_tracks ++ [track] },
            graph := g3,
            timeline_track_indexes := mapInsert
              (mapInsert p.timeline_track_indexes track.id
                p.save_state.timeline_tracks.length)
              track.id p.save_state.timeline_tracks.length,
            timeline_track_handles := p.timeline_track_handles
              ++ [{ for_track_id := track.id }],
            timeline_track_node_ids := p.timeline_track_node_ids
              ++ [p.graph.next_id],
            master_track_mix_in_node_id := p.master_track_mix_in_node_id } := by
  have hmlt : p.master_track_mix_in_node_id < p.graph.next_id := by
    obtain ⟨x, hx, hpx⟩ := List.any_eq_true.1 hmaster
    have := graph_wf_node_lt p.graph hwf x hx
    have hxeq : x.1 = p.master_track_mix_in_node_id := by simpa using hpx
    rw [hxeq] at this
    exact this
  -- the graph after adding the new track node
  have hc1 : (p.graph.add_new_node (GNode.timelineTrack track)).2.contains_node
      p.master_track_mix_in_node_id = true :=
    contains_node_add_new_node _ _ _ hmaster
  -- the mixer replacement succeeds
  obtain ⟨g2, hg2⟩ : ∃ g2,
      ((p.graph.add_new_node (GNode.timelineTrack track)).2).replace_node
        p.master_track_mix_in_node_id
        (GNode.stereoMix (p.save_state.timeline_tracks.length + 1)) = some g2 := by
    unfold Graph.replace_node
    rw [hc1]
    exact ⟨_, rfl⟩
  obtain ⟨hg2nodes, hg2conns, hg2next⟩ := replace_node_parts _ _ _ _ hg2
  have hfindmaster := find_node_replace_self _ _ _ _ hg2
  have hne : (p.graph.next_id == p.master_track_mix_in_node_id) = false := by
    simp only [beq_eq_false_iff_ne, ne_eq]
    intro hcontra
    rw [hcontra] at hmlt
    exact Nat.lt_irrefl _ hmlt
  -- in g2 the fresh node still holds the new track node
  have hfindnew : g2.find_node p.graph.next_id
      = some (GNode.timelineTrack track) := by
    unfold Graph.find_node
    rw [hg2nodes]
    have hg1nodes : (p.graph.add_new_node (GNode.timelineTrack track)).2.nodes
        = p.graph.nodes
            ++ [(p.graph.next_id, GNode.timelineTrack track)] := rfl
    rw [hg1nodes]
    rw [find?_key_map_keep _ _ (fun x => by
      by_cases hx : (x.1 == p.master_track_mix_in_node_id) = true
      · simp [hx]
      · rw [Bool.not_eq_true] at hx
        simp [hx])]
    rw [find?_key_append_fresh p.graph.nodes p.graph.next_id
      (GNode.timelineTrack track) (graph_wf_node_lt p.graph hwf)]
    have hne2 : p.graph.next_id ≠ p.master_track_mix_in_node_id := by
      simpa using hne
    simp [hne2]
  -- the connection succeeds and appends exactly one connection
  have hg3 := add_port_connection_eq g2 PortType.stereoAudio p.graph.next_id 0
    p.master_track_mix_in_node_id p.save_state.timeline_tracks.length
    hfindnew hfindmaster
    (by simp [GNode.out_ports])
    (by simp [GNode.in_ports, Nat.lt_succ_self])
  have hg3conns : ({ g2 with connections := g2.connections
      ++ [⟨PortType.stereoAudio, p.graph.next_id, 0,
           p.master_track_mix_in_node_id,
           p.save_state.timeline_tracks.length⟩] } : Graph).connections
      = g2.connections
        ++ [⟨PortType.stereoAudio, p.graph.next_id, 0,
             p.master_track_mix_in_node_id,
             p.save_state.timeline_tracks.length⟩] := rfl
  have hg2conns2 : g2.connections = p.graph.connections := hg2conns.trans rfl
  refine ⟨g2, _, hg2, hfindmaster, hg2conns2, hg3,
    by rw [hg3conns, hg2conns2], ?_⟩
  -- finally, reduce the whole call
  unfold ProjectInterface.add_timeline_track
  rw [hfresh]
  have hfst : (p.graph.add_new_node (GNode.timelineTrack track)).1
      = p.graph.next_id := rfl
  simp only [Bool.false_eq_true, if_false, TimelineTrackNode.new,
    List.length_append, List.length_cons, List.length_nil, Nat.zero_add,
    Nat.add_sub_cancel, hfst, hg2, hg3]

/-- C3: for every successful `add_timeline_track`, inside the single graph
mutation the master mix node is replaced by a mix node whose input arity is the
new total track count (`old count + 1`) while the new track is still connected
to nothing; only then is the new track's output connected, and in the final
graph the new track's output feeds exactly one connection — into the mixer
input at index `new count - 1` (written `old count` below). The hypotheses are
the duplicate-ID check of the call itself plus the structural facts every
graph built by this interface satisfies: the master node exists and all node
IDs and connection endpoints are below the fresh-ID counter. -/
theorem add_timeline_track_mixer_rebuilt_before_connect (env : LoaderEnv)
    (p : ProjectInterface) (track : TimelineTrackSaveState)
    (hfresh : mapContains p.timeline_track_indexes track.id = false)
    (hmaster : p.graph.contains_node p.master_track_mix_in_node_id = true)
    (hwf : p.graph.wf = true) :
    ∃ g2 g3 s,
      ((p.graph.add_new_node (GNode.timelineTrack track)).2).replace_node
          p.master_track_mix_in_node_id
          (GNode.stereoMix (p.save_state.timeline_tracks.length + 1)) = some g2
      ∧ g2.find_node p.master_track_mix_in_node_id
          = some (GNode.stereoMix (p.save_state.timeline_tracks.length + 1))
      ∧ g2.connections.filter (fun c => c.from_id == p.graph.next_id) = []
      ∧ g2.add_port_connection PortType.stereoAudio p.graph.next_id 0
          p.master_track_mix_in_node_id p.save_state.timeline_tracks.length
          = some g3
      ∧ p.add_timeline_track env track = .ok (env track) s
      ∧ s.graph = g3
      ∧ s.save_state.timeline_tracks.length
          = p.save_state.timeline_tracks.length + 1
      ∧ g3.connections.filter (fun c => c.from_id == p.graph.next_id)
          = [⟨PortType.stereoAudio, p.graph.next_id, 0,
              p.master_track_mix_in_node_id,
              p.save_state.timeline_tracks.length⟩] := by
  obtain ⟨g2, g3, hg2, hfind, hconns, hg3, hg3conns, hok⟩ :=
    add_timeline_track_eq env p track hfresh hmaster hwf
  have hnil : g2.connections.filter
      (fun c => c.from_id == p.graph.next_id) = [] := by
    rw [hconns]
    rw [List.filter_eq_nil_iff]
    intro c hc
    have hlt := (graph_wf_conn_lt p.graph hwf c hc).1
    simp only [beq_iff_eq]
    exact Nat.ne_of_lt hlt
  have hnil2 : p.graph.connections.filter
      (fun c => c.from_id == p.graph.next_id) = [] := by
    rw [← hconns]
    exact hnil
  refine ⟨g2, g3, _, hg2, hfind, hnil, hg3, hok, rfl, ?_, ?_⟩
  · simp [List.length_append]
  · rw [hg3conns, List.filter_append, hnil2]
    simp

/-- C3 witness: adding `Track A` to the freshly constructed empty project
instantiates the mixer-rebuilt-before-connect property. -/
theorem add_timeline_track_mixer_rebuilt_before_connect_witness :
    (mapContains p_empty.timeline_track_indexes trackA.id = false
      ∧ p_empty.graph.contains_node p_empty.master_track_mix_in_node_id = true
      ∧ p_empty.graph.wf = true)
    ∧ ∃ g2 g3 s,
      ((p_empty.graph.add_new_node (GNode.timelineTrack trackA)).2).replace_node
          p_empty.master_track_mix_in_node_id
          (GNode.stereoMix (p_empty.save_state.timeline_tracks.length + 1))
          = some g2
      ∧ g2.find_node p_empty.master_track_mix_in_node_id
          = some (GNode.stereoMix (p_empty.save_state.timeline_tracks.length + 1))
      ∧ g2.connections.filter (fun c => c.from_id == p_empty.graph.next_id) = []
      ∧ g2.add_port_connection PortType.stereoAudio p_empty.graph.next_id 0
          p_empty.master_track_mix_in_node_id
          p_empty.save_state.timeline_tracks.length = some g3
      ∧ p_empty.add_timeline_track env0 trackA = .ok (env0 trackA) s
      ∧ s.graph = g3
      ∧ s.save_state.timeline_tracks.length
          = p_empty.save_state.timeline_tracks.length + 1
      ∧ g3.connections.filter (fun c => c.from_id == p_empty.graph.next_id)
          = [⟨PortType.stereoAudio, p_empty.graph.next_id, 0,
              p_empty.master_track_mix_in_node_id,
              p_empty.save_state.timeline_tracks.length⟩] :=
  ⟨⟨by decide, by decide, by decide⟩,
   add_timeline_track_mixer_rebuilt_before_connect env0 p_empty trackA
     (by decide) (by decide) (by decide)⟩

/-! Helper lemmas about the association-list model of the track index map. -/

theorem mapGet_eq_none_of_contains_false (m : List (String × Nat)) (k : String)
    (h : mapContains m k = false) : mapGet m k = none := by
  unfold mapContains at h
  unfold mapGet
  have : m.find? (fun p => p.1 == k) = none := by
    rw [List.find?_eq_none]
    intro x hx hpx
    have : m.any (fun p => p.1 == k) = true := List.any_eq_true.2 ⟨x, hx, hpx⟩
    rw [this] at h
    cases h
  rw [this]
  rfl

theorem contains_of_mapGet_some (m : List (String × Nat)) (k : String) (v : Nat)
    (h : mapGet m k = some v) : mapContains m k = true := by
  unfold mapGet at h
  cases hf : m.find? (fun p => p.1 == k) with
  | none => rw [hf] at h; cases h
  | some x =>
    have hpx := @List.find?_some (String × Nat) (fun p => p.1 == k) x m hf
    exact List.any_eq_true.2 ⟨x, List.mem_of_find?_eq_some hf, hpx⟩

theorem find?_key_filter_self {κ ν : Type} [BEq κ] [LawfulBEq κ]
    (l : List (κ × ν)) (k : κ) :
    (l.filter (fun p => p.1 != k)).find? (fun p => p.1 == k) = none := by
  rw [List.find?_eq_none]
  intro x hx
  rw [List.mem_filter] at hx
  have hne := hx.2
  rw [bne_iff_ne] at hne
  simp only [beq_iff_eq]
  exact hne

theorem mapGet_remove_self (m : List (String × Nat)) (k : String) :
    mapGet (mapRemove m k).2 k = none := by
  unfold mapRemove mapGet
  rw [find?_key_filter_self]
  rfl

theorem mapGet_append_single_same (m : List (String × Nat)) (k : String)
    (v : Nat) (h : mapContains m k = false) :
    mapGet (m ++ [(k, v)]) k = some v := by
  unfold mapGet
  rw [List.find?_append]
  have hnone : m.find? (fun p => p.1 == k) = none := by
    have := mapGet_eq_none_of_contains_false m k h
    unfold mapGet at this
    cases hf : m.find? (fun p => p.1 == k) with
    | none => rfl
    | some x => rw [hf] at this; cases this
  rw [hnone]
  simp [List.find?_cons]

/-- The parallel-array consistency invariant: the three vectors have equal
length and every index-table entry points at an in-bounds position holding the
save state with that very ID. `add_timeline_track` preserves it;
`remove_timeline_track` of a non-last track violates it (claim C1). -/
def ProjectInterface.arrays_consistent (p : ProjectInterface) : Bool :=
  (p.timeline_track_handles.length == p.save_state.timeline_tracks.length)
  && (p.timeline_track_node_ids.length == p.save_state.timeline_tracks.length)
  && p.timeline_track_indexes.all (fun kv =>
      match p.save_state.timeline_tracks[kv.2]? with
      | some t => t.id == kv.1
      | none => false)

theorem consistent_entry (p : ProjectInterface)
    (hc : p.arrays_consistent = true) (id : String) (i : Nat)
    (h : mapGet p.timeline_track_indexes id = some i) :
    ∃ t hnd node_id,
      p.save_state.timeline_tracks[i]? = some t ∧ t.id = id
      ∧ p.timeline_track_handles[i]? = some hnd
      ∧ p.timeline_track_node_ids[i]? = some node_id := by
  unfold ProjectInterface.arrays_consistent at hc
  rw [Bool.and_eq_true, Bool.and_eq_true] at hc
  obtain ⟨⟨hlen1, hlen2⟩, hall⟩ := hc
  rw [beq_iff_eq] at hlen1 hlen2
  unfold mapGet at h
  cases hf : p.timeline_track_indexes.find? (fun p2 => p2.1 == id) with
  | none => rw [hf] at h; cases h
  | some kv =>
    rw [hf] at h
    have hkvi : kv.2 = i := by simpa using h
    have hkmem := List.mem_of_find?_eq_some hf
    have hkid : kv.1 = id := by
      have := List.find?_some hf
      simpa using this
    have hprop := List.all_eq_true.1 hall kv hkmem
    cases hs : p.save_state.timeline_tracks[kv.2]? with
    | none => rw [hs] at hprop; cases hprop
    | some t =>
      rw [hs] at hprop
      have htid : t.id = kv.1 := by simpa using hprop
      have hibound : i < p.save_state.timeline_tracks.length := by
        rw [← hkvi]
        exact (List.getElem?_eq_some.1 hs).1
      have hhnd : ∃ hnd, p.timeline_track_handles[i]? = some hnd := by
        cases hh : p.timeline_track_handles[i]? with
        | some hnd => exact ⟨hnd, rfl⟩
        | none =>
          have := List.getElem?_eq_none_iff.1 hh
          rw [hlen1] at this
          exact absurd hibound (Nat.not_lt.2 this)
      have hnode : ∃ node_id, p.timeline_track_node_ids[i]? = some node_id := by
        cases hh : p.timeline_track_node_ids[i]? with
        | some node_id => exact ⟨node_id, rfl⟩
        | none =>
          have := List.getElem?_eq_none_iff.1 hh
          rw [hlen2] at this
          exact absurd hibound (Nat.not_lt.2 this)
      obtain ⟨hnd, hhnd⟩ := hhnd
      obtain ⟨node_id, hnode⟩ := hnode
      exact ⟨t, hnd, node_id, by rw [← hkvi]; exact hs,
        by rw [htid, hkid], hhnd, hnode⟩

/-- C4 (amended): for every project state satisfying the parallel-array
consistency invariant — which `remove_timeline_track` of a non-last track
destroys, see the counterexample — `timeline_track` and `timeline_track_mut`
return None exactly when the ID is absent from the index table, and for a
present ID the stored index is in bounds of both parallel vectors and both
functions return the handle and save state of that same track (its save-state
ID equals the looked-up ID). -/
theorem timeline_track_lookup_sound (p : ProjectInterface)
    (hc : p.arrays_consistent = true) (id : String) :
    (mapGet p.timeline_track_indexes id = none →
      p.timeline_track id = .notFound ∧ p.timeline_track_mut id = .notFound)
    ∧ ∀ i, mapGet p.timeline_track_indexes id = some i →
        ∃ hnd t,
          p.timeline_track_handles[i]? = some hnd
          ∧ p.save_state.timeline_tracks[i]? = some t
          ∧ p.timeline_track id = .found hnd t
          ∧ p.timeline_track_mut id = .found hnd t
          ∧ t.id = id := by
  constructor
  · intro hnone
    unfold ProjectInterface.timeline_track ProjectInterface.timeline_track_mut
    rw [hnone]
    exact ⟨rfl, rfl⟩
  · intro i hsome
    obtain ⟨t, hnd, node_id, hs, htid, hh, _⟩ :=
      consistent_entry p hc id i hsome
    refine ⟨hnd, t, hh, hs, ?_, ?_, htid⟩
    · unfold ProjectInterface.timeline_track
      simp only [hsome, hh, hs]
    · unfold ProjectInterface.timeline_track_mut
      simp only [hsome, hh, hs]

/-- C4 witness: in the consistent one-track state `p_A`, looking `Track A` up
returns its own handle and save state. -/
theorem timeline_track_lookup_sound_witness :
    p_A.arrays_consistent = true
    ∧ mapGet p_A.timeline_track_indexes ("Track A") = some 0
    ∧ ∃ hnd t,
        p_A.timeline_track_handles[0]? = some hnd
        ∧ p_A.save_state.timeline_tracks[0]? = some t
        ∧ p_A.timeline_track ("Track A") = .found hnd t
        ∧ p_A.timeline_track_mut ("Track A") = .found hnd t
        ∧ t.id = ("Track A") :=
  ⟨by decide, rfl,
   (timeline_track_lookup_sound p_A (by decide) ("Track A")).2 0 rfl⟩

theorem remove_node_eq (g : Graph) (id : Nat) (h : g.contains_node id = true) :
    g.remove_node id = some
      { nodes := g.nodes.filter (fun p => p.1 != id),
        connections := g.connections.filter
          (fun c => c.from_id != id && c.to_id != id),
        next_id := g.next_id } := by
  unfold Graph.remove_node
  rw [h]
  rfl

theorem contains_node_filter_self (g : Graph) (id : Nat) :
    (g.nodes.filter (fun p => p.1 != id)).any (fun p => p.1 == id) = false := by
  rw [← Bool.not_eq_true, List.any_eq_true]
  rintro ⟨x, hx, hpx⟩
  rw [List.mem_filter] at hx
  have hne := hx.2
  rw [bne_iff_ne] at hne
  exact hne (by simpa using hpx)

theorem find?_key_filter_ne {κ ν : Type} [BEq κ] [LawfulBEq κ]
    (l : List (κ × ν)) (k j : κ) (hkj : k ≠ j) :
    (l.filter (fun p => p.1 != j)).find? (fun p => p.1 == k)
      = l.find? (fun p => p.1 == k) := by
  induction l with
  | nil => rfl
  | cons hd tl ih =>
    cases hj : (hd.1 != j) with
    | true =>
      cases hk : (hd.1 == k) with
      | true => simp [List.filter_cons, hj, List.find?_cons, hk]
      | false => simp [List.filter_cons, hj, List.find?_cons, hk, ih]
    | false =>
      have hdj : hd.1 = j := by
        rw [bne_eq_false_iff_eq] at hj
        exact hj
      have hk : (hd.1 == k) = false := by
        rw [hdj, beq_eq_false_iff_ne]
        exact fun hc => hkj hc.symm
      simp [List.filter_cons, hj, List.find?_cons, hk, ih]

/-- The full well-formedness every really reachable (uncorrupted) project
state satisfies: consistent parallel arrays, every track's node present in the
graph, and no track node sharing the master mix node's ID. -/
def ProjectInterface.well_formed (p : ProjectInterface) : Bool :=
  p.arrays_consistent
  && p.timeline_track_node_ids.all (fun nid =>
      p.graph.contains_node nid && (nid != p.master_track_mix_in_node_id))

/-- C5 (amended): restricted to well-formed states — which removing a
non-last track destroys, see the counterexample — `remove_timeline_track` of
a present ID returns Ok, removes exactly that track's entry from the index
table and position from the three parallel vectors, removes that track's node
(and its connections) from the graph, and leaves the master mix node — hence
the mixer's input arity — untouched; for an absent ID it returns the
not-found error with the state unchanged. -/
theorem remove_timeline_track_spec (p : ProjectInterface) (id : String)
    (hwf : p.well_formed = true) :
    (mapContains p.timeline_track_indexes id = false →
      p.remove_timeline_track id = .err p)
    ∧ ∀ i, mapGet p.timeline_track_indexes id = some i →
        ∃ t node_id g s,
          p.save_state.timeline_tracks[i]? = some t
          ∧ t.id = id
          ∧ p.timeline_track_node_ids[i]? = some node_id
          ∧ p.graph.remove_node node_id = some g
          ∧ p.remove_timeline_track id = .ok () s
          ∧ s.save_state.timeline_tracks
              = p.save_state.timeline_tracks.eraseIdx i
          ∧ s.timeline_track_handles = p.timeline_track_handles.eraseIdx i
          ∧ s.timeline_track_node_ids = p.timeline_track_node_ids.eraseIdx i
          ∧ s.timeline_track_indexes = (mapRemove p.timeline_track_indexes id).2
          ∧ mapGet s.timeline_track_indexes id = none
          ∧ s.graph = g
          ∧ g.contains_node node_id = false
          ∧ g.find_node p.master_track_mix_in_node_id
              = p.graph.find_node p.master_track_mix_in_node_id
          ∧ s.master_track_mix_in_node_id = p.master_track_mix_in_node_id := by
  unfold ProjectInterface.well_formed at hwf
  rw [Bool.and_eq_true] at hwf
  obtain ⟨hcons, hnodes⟩ := hwf
  constructor
  · intro habsent
    have hnone := mapGet_eq_none_of_contains_false _ _ habsent
    unfold ProjectInterface.remove_timeline_track mapRemove
    rw [hnone]
  · intro i hsome
    obtain ⟨t, hnd, node_id, hs, htid, hh, hn⟩ :=
      consistent_entry p hcons id i hsome
    have hmem : node_id ∈ p.timeline_track_node_ids := by
      obtain ⟨hb, hget⟩ := List.getElem?_eq_some.1 hn
      rw [← hget]
      exact List.getElem_mem hb
    have hprops := List.all_eq_true.1 hnodes node_id hmem
    rw [Bool.and_eq_true] at hprops
    obtain ⟨hcontains, hnemaster⟩ := hprops
    have hne : p.master_track_mix_in_node_id ≠ node_id := by
      rw [bne_iff_ne] at hnemaster
      exact fun hc => hnemaster hc.symm
    have hrem := remove_node_eq p.graph node_id hcontains
    have hcall : p.remove_timeline_track id = .ok ()
        { save_state := { timeline_tracks :=
            p.save_state.timeline_tracks.eraseIdx i },
          graph := { nodes := p.graph.nodes.filter (fun p2 => p2.1 != node_id),
                     connections := p.graph.connections.filter
                       (fun c => c.from_id != node_id && c.to_id != node_id),
                     next_id := p.graph.next_id },
          timeline_track_indexes := (mapRemove p.timeline_track_indexes id).2,
          timeline_track_handles := p.timeline_track_handles.eraseIdx i,
          timeline_track_node_ids := p.timeline_track_node_ids.eraseIdx i,
          master_track_mix_in_node_id := p.master_track_mix_in_node_id } := by
      unfold ProjectInterface.remove_timeline_track mapRemove
      simp only [hsome, hs, hh, hn, hrem]
    refine ⟨t, node_id, _, _, hs, htid, hn, hrem, hcall, rfl, rfl, rfl, rfl,
      mapGet_remove_self _ _, rfl, ?_, ?_, rfl⟩
    · unfold Graph.contains_node
      exact contains_node_filter_self p.graph node_id
    · unfold Graph.find_node
      rw [find?_key_filter_ne _ _ _ hne]

/-- C5 witness: removing `Track A` from the consistent one-track state `p_A`
removes exactly that track and leaves the mixer node alone. -/
theorem remove_timeline_track_spec_witness :
    p_A.well_formed = true
    ∧ mapGet p_A.timeline_track_indexes ("Track A") = some 0
    ∧ ∃ t node_id g s,
        p_A.save_state.timeline_tracks[0]? = some t
        ∧ t.id = ("Track A")
        ∧ p_A.timeline_track_node_ids[0]? = some node_id
        ∧ p_A.graph.remove_node node_id = some g
        ∧ p_A.remove_timeline_track ("Track A") = .ok () s
        ∧ s.save_state.timeline_tracks
            = p_A.save_state.timeline_tracks.eraseIdx 0
        ∧ s.timeline_track_handles = p_A.timeline_track_handles.eraseIdx 0
        ∧ s.timeline_track_node_ids = p_A.timeline_track_node_ids.eraseIdx 0
        ∧ s.timeline_track_indexes
            = (mapRemove p_A.timeline_track_indexes ("Track A")).2
        ∧ mapGet s.timeline_track_indexes ("Track A") = none
        ∧ s.graph = g
        ∧ g.contains_node node_id = false
        ∧ g.find_node p_A.master_track_mix_in_node_id
            = p_A.graph.find_node p_A.master_track_mix_in_node_id
        ∧ s.master_track_mix_in_node_id = p_A.master_track_mix_in_node_id :=
  ⟨by decide, rfl,
   (remove_timeline_track_spec p_A ("Track A") (by decide)).2 0 rfl⟩

theorem mapContains_filter_false (m : List (String × Nat)) (k : String)
    (j : String) (h : mapContains m k = false) :
    mapContains (m.filter (fun p => p.1 != j)) k = false := by
  unfold mapContains at *
  rw [← Bool.not_eq_true, List.any_eq_true] at h ⊢
  rintro ⟨x, hx, hpx⟩
  exact h ⟨x, (List.mem_filter.1 hx).1, hpx⟩

theorem getElem?_isSome_of_lt {α : Type} (l : List α) (i : Nat)
    (h : i < l.length) : ∃ a, l[i]? = some a := by
  cases hx : l[i]? with
  | some a => exact ⟨a, rfl⟩
  | none => exact absurd h (Nat.not_lt.2 (List.getElem?_eq_none_iff.1 hx))

/-- C6: `set_timeline_track_id(old_id, new_id)` errors when `new_id` is
already taken or `old_id` is absent, leaving the state unchanged in both
cases; when it returns Ok, the track is findable under `new_id` with its
save-state ID rewritten to `new_id` and no longer findable under `old_id`;
and in every returning outcome (Ok or error), if `old_id` was present before
the call then afterwards at least one of `old_id`/`new_id` is in the index
table — no state exists in which the track is findable under neither name.
The hypothesis is the vector-length equality every reachable state satisfies. -/
theorem set_timeline_track_id_spec (p : ProjectInterface)
    (old_id new_id : String)
    (hlen : p.timeline_track_handles.length
      = p.save_state.timeline_tracks.length) :
    (mapContains p.timeline_track_indexes new_id = true →
      p.set_timeline_track_id old_id new_id = .err p)
    ∧ (mapContains p.timeline_track_indexes new_id = false →
       mapGet p.timeline_track_indexes old_id = none →
        p.set_timeline_track_id old_id new_id = .err p)
    ∧ (∀ s, p.set_timeline_track_id old_id new_id = .ok () s →
        (∃ hnd t, s.timeline_track new_id = .found hnd t ∧ t.id = new_id)
        ∧ s.timeline_track old_id = .notFound
        ∧ mapContains s.timeline_track_indexes new_id = true)
    ∧ (∀ s, (p.set_timeline_track_id old_id new_id = .ok () s
          ∨ p.set_timeline_track_id old_id new_id = .err s) →
        mapContains p.timeline_track_indexes old_id = true →
        (mapContains s.timeline_track_indexes old_id = true
          ∨ mapContains s.timeline_track_indexes new_id = true)) := by
  by_cases hnew : mapContains p.timeline_track_indexes new_id = true
  · have hcall : p.set_timeline_track_id old_id new_id = .err p := by
      unfold ProjectInterface.set_timeline_track_id
      rw [hnew]
      rfl
    refine ⟨fun _ => hcall, ?_, ?_, ?_⟩
    · intro hfalse _
      rw [hnew] at hfalse
      cases hfalse
    · intro s hok
      rw [hcall] at hok
      cases hok
    · intro s hor holdc
      rcases hor with hok | herr
      · rw [hcall] at hok
        cases hok
      · rw [hcall] at herr
        cases herr
        exact Or.inl holdc
  · rw [Bool.not_eq_true] at hnew
    cases hold : mapGet p.timeline_track_indexes old_id with
    | none =>
      have hcall : p.set_timeline_track_id old_id new_id = .err p := by
        unfold ProjectInterface.set_timeline_track_id mapRemove
        rw [hnew, hold]
        rfl
      refine ⟨?_, fun _ _ => hcall, ?_, ?_⟩
      · intro htrue
        rw [htrue] at hnew
        cases hnew
      · intro s hok
        rw [hcall] at hok
        cases hok
      · intro s hor holdc
        rcases hor with hok | herr
        · rw [hcall] at hok
          cases hok
        · rw [hcall] at herr
          cases herr
          exact Or.inl holdc
    | some index =>
      have hcontold : mapContains p.timeline_track_indexes old_id = true :=
        contains_of_mapGet_some _ _ _ hold
      have hneq : (new_id == old_id) = false := by
        rw [beq_eq_false_iff_ne]
        intro he
        rw [he] at hnew
        rw [hnew] at hcontold
        cases hcontold
      have hfc : mapContains (p.timeline_track_indexes.filter
          (fun p2 => p2.1 != old_id)) new_id = false :=
        mapContains_filter_false _ _ _ hnew
      cases hts : p.save_state.timeline_tracks[index]? with
      | none =>
        have hcall : p.set_timeline_track_id old_id new_id = .panic := by
          unfold ProjectInterface.set_timeline_track_id mapRemove
          simp [hnew, hold, hts]
        refine ⟨?_, ?_, ?_, ?_⟩
        · intro htrue
          rw [htrue] at hnew
          cases hnew
        · intro _ hn2
          simp [hold] at hn2
        · intro s hok
          rw [hcall] at hok
          cases hok
        · intro s hor _
          rcases hor with hok | herr
          · rw [hcall] at hok
            cases hok
          · rw [hcall] at herr
            cases herr
      | some t =>
        have hcall : p.set_timeline_track_id old_id new_id = .ok ()
            { p with
              timeline_track_indexes := mapInsert
                (p.timeline_track_indexes.filter (fun p2 => p2.1 != old_id))
                new_id index,
              save_state := { timeline_tracks :=
                p.save_state.timeline_tracks.set index { t with id := new_id } } }
            := by
          unfold ProjectInterface.set_timeline_track_id mapRemove
          simp [hnew, hold, hts]
        have hidxeq : mapInsert
            (p.timeline_track_indexes.filter (fun p2 => p2.1 != old_id))
            new_id index
            = (p.timeline_track_indexes.filter (fun p2 => p2.1 != old_id))
              ++ [(new_id, index)] := by
          unfold mapInsert
          rw [hfc]
          rfl
        have hget_new : mapGet (mapInsert
            (p.timeline_track_indexes.filter (fun p2 => p2.1 != old_id))
            new_id index) new_id = some index := by
          rw [hidxeq]
          exact mapGet_append_single_same _ _ _ hfc
        have hget_old : mapGet (mapInsert
            (p.timeline_track_indexes.filter (fun p2 => p2.1 != old_id))
            new_id index) old_id = none := by
          rw [hidxeq]
          unfold mapGet
          rw [List.find?_append, find?_key_filter_self]
          simp [List.find?_cons, hneq]
        have hbound : index < p.save_state.timeline_tracks.length :=
          (List.getElem?_eq_some.1 hts).1
        have hbound2 : index < p.timeline_track_handles.length := by
          rw [hlen]
          exact hbound
        obtain ⟨hnd, hhnd⟩ := getElem?_isSome_of_lt _ _ hbound2
        have hsaves : (p.save_state.timeline_tracks.set index
            { t with id := new_id })[index]? = some { t with id := new_id } := by
          rw [List.getElem?_set]
          simp [hbound]
        refine ⟨?_, ?_, ?_, ?_⟩
        · intro htrue
          rw [htrue] at hnew
          cases hnew
        · intro _ hn2
          simp [hold] at hn2
        · intro s hok
          rw [hcall] at hok
          cases hok
          refine ⟨⟨hnd, { t with id := new_id }, ?_, rfl⟩, ?_, ?_⟩
          · unfold ProjectInterface.timeline_track
            simp only [hget_new, hhnd, hsaves]
          · unfold ProjectInterface.timeline_track
            simp only [hget_old]
          · exact contains_of_mapGet_some _ _ _ hget_new
        · intro s hor _
          rcases hor with hok | herr
          · rw [hcall] at hok
            cases hok
            exact Or.inr (contains_of_mapGet_some _ _ _ hget_new)
          · rw [hcall] at herr
            cases herr

/-- C6 witness: renaming `Track A` to `Track B` in the one-track state `p_A`
instantiates the rename specification. -/
theorem set_timeline_track_id_spec_witness :
    p_A.timeline_track_handles.length
      = p_A.save_state.timeline_tracks.length
    ∧ ((mapContains p_A.timeline_track_indexes ("Track B") = true →
        p_A.set_timeline_track_id ("Track A") ("Track B") = .err p_A)
      ∧ (mapContains p_A.timeline_track_indexes ("Track B") = false →
         mapGet p_A.timeline_track_indexes ("Track A") = none →
          p_A.set_timeline_track_id ("Track A") ("Track B") = .err p_A)
      ∧ (∀ s, p_A.set_timeline_track_id ("Track A") ("Track B") = .ok () s →
          (∃ hnd t, s.timeline_track ("Track B") = .found hnd t
            ∧ t.id = ("Track B"))
          ∧ s.timeline_track ("Track A") = .notFound
          ∧ mapContains s.timeline_track_indexes ("Track B") = true)
      ∧ (∀ s, (p_A.set_timeline_track_id ("Track A") ("Track B") = .ok () s
            ∨ p_A.set_timeline_track_id ("Track A") ("Track B") = .err s) →
          mapContains p_A.timeline_track_indexes ("Track A") = true →
          (mapContains s.timeline_track_indexes ("Track A") = true
            ∨ mapContains s.timeline_track_indexes ("Track B") = true))) :=
  ⟨rfl, set_timeline_track_id_spec p_A ("Track A") ("Track B") rfl⟩

theorem find?_append_single_same (m : List (String × Nat)) (k : String)
    (v : Nat) (h : mapContains m k = false) :
    (m ++ [(k, v)]).find? (fun p => p.1 == k) = some (k, v) := by
  rw [List.find?_append]
  have hnone : m.find? (fun p => p.1 == k) = none := by
    rw [List.find?_eq_none]
    intro x hx hpx
    have : m.any (fun p => p.1 == k) = true := List.any_eq_true.2 ⟨x, hx, hpx⟩
    unfold mapContains at h
    rw [this] at h
    cases h
  rw [hnone]
  simp [List.find?_cons]

theorem mapGet_insert_insert (m : List (String × Nat)) (k : String) (v : Nat)
    (h : mapContains m k = false) :
    mapGet (mapInsert (mapInsert m k v) k v) k = some v := by
  have h1 : mapInsert m k v = m ++ [(k, v)] := by
    unfold mapInsert
    rw [h]
    rfl
  rw [h1]
  have h2 : mapContains (m ++ [(k, v)]) k = true := by
    unfold mapContains
    rw [List.any_append]
    simp [List.any_cons]
  unfold mapInsert
  rw [h2]
  unfold mapGet
  have hf : ∀ x : String × Nat,
      ((fun p => if p.1 == k then (k, v) else p) x).1 = x.1 := by
    intro x
    by_cases hx : (x.1 == k) = true
    · have : x.1 = k := by simpa using hx
      simp [hx, this]
    · rw [Bool.not_eq_true] at hx
      simp [hx]
  rw [if_pos rfl]
  rw [find?_key_map_keep _ _ hf k]
  rw [find?_append_single_same m k v h]
  simp

theorem find_node_add_isSome (g : Graph) (node : GNode) (nid : Nat)
    (h : (g.find_node nid).isSome = true) :
    ((g.add_new_node node).2.find_node nid).isSome = true := by
  unfold Graph.find_node Graph.add_new_node at *
  rw [List.find?_append]
  cases hx : g.nodes.find? (fun p => p.1 == nid) with
  | some x => simp [hx]
  | none =>
    rw [hx] at h
    cases h

theorem find_node_add_self_isSome (g : Graph) (node : GNode) :
    ((g.add_new_node node).2.find_node g.next_id).isSome = true := by
  unfold Graph.find_node Graph.add_new_node
  rw [List.find?_append]
  cases hx : g.nodes.find? (fun p => p.1 == g.next_id) with
  | some x => simp [hx]
  | none => simp [hx, List.find?_cons]

theorem buildTimelineTracks_spec (env : LoaderEnv) :
    ∀ (ts : List TimelineTrackSaveState) (idx : Nat) (g : Graph)
      (m : List (String × Nat)) (hs : List TimelineTrackHandle)
      (ns : List Nat) (errs : List ResourceLoadError),
      (buildTimelineTracks env ts idx g m hs ns errs).2.2.2.2
          = errs ++ ts.flatMap env
      ∧ (buildTimelineTracks env ts idx g m hs ns errs).2.1.length
          = hs.length + ts.length
      ∧ (buildTimelineTracks env ts idx g m hs ns errs).2.2.1.length
          = ns.length + ts.length
      ∧ ((∀ q ∈ g.nodes, q.1 < g.next_id) →
          ∀ q ∈ (buildTimelineTracks env ts idx g m hs ns errs).2.2.2.1.nodes,
            q.1 < (buildTimelineTracks env ts idx g m hs ns errs).2.2.2.1.next_id)
      ∧ ((∀ nid ∈ ns, (g.find_node nid).isSome = true) →
          ∀ nid ∈ (buildTimelineTracks env ts idx g m hs ns errs).2.2.1,
            ((buildTimelineTracks env ts idx g m hs ns errs).2.2.2.1.find_node
              nid).isSome = true) := by
  intro ts
  induction ts with
  | nil =>
    intro idx g m hs ns errs
    exact ⟨by simp [buildTimelineTracks], by simp [buildTimelineTracks],
      by simp [buildTimelineTracks], fun h => h, fun h => h⟩
  | cons t rest ih =>
    intro idx g m hs ns errs
    have hstep : buildTimelineTracks env (t :: rest) idx g m hs ns errs
        = buildTimelineTracks env rest (idx + 1)
            (g.add_new_node (GNode.timelineTrack t)).2
            (mapInsert m t.id idx)
            (hs ++ [{ for_track_id := t.id }])
            (ns ++ [g.next_id])
            (errs ++ env t) := rfl
    rw [hstep]
    obtain ⟨ih1, ih2, ih3, ih4, ih5⟩ := ih (idx + 1)
      ((g.add_new_node (GNode.timelineTrack t)).2) (mapInsert m t.id idx)
      (hs ++ [{ for_track_id := t.id }]) (ns ++ [g.next_id]) (errs ++ env t)
    refine ⟨?_, ?_, ?_, ?_, ?_⟩
    · rw [ih1]
      simp [List.flatMap_cons, List.append_assoc]
    · rw [ih2]
      simp [List.length_append]
      omega
    · rw [ih3]
      simp [List.length_append]
      omega
    · intro hg
      apply ih4
      intro q hq
      rcases List.mem_append.1 hq with hq1 | hq2
      · exact Nat.lt_trans (hg q hq1) (Nat.lt_succ_self _)
      · have hq3 : q = (g.next_id, GNode.timelineTrack t) := by
          simpa using hq2
        rw [hq3]
        exact Nat.lt_succ_self _
    · intro hns
      apply ih5
      intro nid hnid
      rcases List.mem_append.1 hnid with h1 | h2
      · exact find_node_add_isSome g _ nid (hns nid h1)
      · have hn3 : nid = g.next_id := by simpa using h2
        rw [hn3]
        exact find_node_add_self_isSome g _

theorem connectTracks_ok (master : Nat) (n : Nat) :
    ∀ (l : List (Nat × Nat)) (g : Graph),
      g.find_node master = some (GNode.stereoMix n) →
      (∀ pr ∈ l, pr.1 < n ∧ (g.find_node pr.2).isSome = true) →
      ∃ g2, connectTracks l master g = some g2 := by
  intro l
  induction l with
  | nil => exact fun g _ _ => ⟨g, rfl⟩
  | cons hd tl ih =>
    intro g hm hall
    obtain ⟨i, nid⟩ := hd
    obtain ⟨hi, hsome⟩ := hall (i, nid) (List.mem_cons_self _ _)
    obtain ⟨fn, hfn⟩ : ∃ fn, g.find_node nid = some fn := by
      cases hfind : g.find_node nid with
      | none =>
        rw [hfind] at hsome
        cases hsome
      | some fn => exact ⟨fn, rfl⟩
    have hconn := add_port_connection_eq g PortType.stereoAudio nid 0 master i
      hfn hm (GNode.out_ports_pos fn) (by simpa [GNode.in_ports] using hi)
    simp only [connectTracks, hconn]
    exact ih { g with connections := g.connections
        ++ [⟨PortType.stereoAudio, nid, 0, master, i⟩] } hm
      (fun pr hpr => hall pr (List.mem_cons_of_mem _ hpr))

theorem projectInterface_new_ok (env : LoaderEnv) (s0 : ProjectSaveState) :
    ∃ pi, ProjectInterface.new env s0
        = some (pi, s0.timeline_tracks.flatMap env)
      ∧ pi.save_state = s0 := by
  have hspec := buildTimelineTracks_spec env s0.timeline_tracks 0
    { nodes := [], connections := [], next_id := 0 } [] [] [] []
  rcases hbt : buildTimelineTracks env s0.timeline_tracks 0
      { nodes := [], connections := [], next_id := 0 } [] [] [] []
    with ⟨m, hs, ns, g, errs⟩
  rw [hbt] at hspec
  obtain ⟨h1, h2, h3, h4, h5⟩ := hspec
  simp only [List.nil_append, List.length_nil, Nat.zero_add] at h1 h2 h3
  have hwfg : ∀ q ∈ g.nodes, q.1 < g.next_id := by
    apply h4
    intro q hq
    cases hq
  have hfindall : ∀ nid ∈ ns, (g.find_node nid).isSome = true := by
    apply h5
    intro nid hnid
    cases hnid
  have hfm : (g.add_new_node (GNode.stereoMix hs.length)).2.find_node g.next_id
      = some (GNode.stereoMix hs.length) := by
    unfold Graph.find_node Graph.add_new_node
    rw [find?_key_append_fresh g.nodes g.next_id _ hwfg]
    rfl
  obtain ⟨gf, hgf⟩ : ∃ gf, connectTracks ns.enum g.next_id
      (g.add_new_node (GNode.stereoMix hs.length)).2 = some gf := by
    apply connectTracks_ok g.next_id hs.length
    · exact hfm
    · intro pr hpr
      obtain ⟨i, nid⟩ := pr
      obtain ⟨hilt, hnid⟩ := List.mem_enum hpr
      constructor
      · rw [h2, ← h3]
        exact hilt
      · apply find_node_add_isSome
        apply hfindall
        rw [hnid]
        exact List.getElem_mem hilt
  refine ⟨{ save_state := s0, graph := gf, timeline_track_indexes := m,
            timeline_track_handles := hs, timeline_track_node_ids := ns,
            master_track_mix_in_node_id := g.next_id }, ?_, rfl⟩
  unfold ProjectInterface.new
  have hfst : (g.add_new_node (GNode.stereoMix hs.length)).1 = g.next_id := rfl
  simp only [hbt, hfst, hgf, h1]

/-- C7: for every possible load outcome (the quantified `env`), adding a
track with a fresh ID returns Ok with exactly the clips' load errors as the
value, and the track exists afterwards — load failures never abort the add.
Likewise `ProjectInterface::new` succeeds on every initial save state,
returning all tracks' load errors concatenated in track order. -/
theorem add_and_new_collect_load_errors (env : LoaderEnv)
    (p : ProjectInterface) (track : TimelineTrackSaveState)
    (s0 : ProjectSaveState)
    (hfresh : mapContains p.timeline_track_indexes track.id = false)
    (hmaster : p.graph.contains_node p.master_track_mix_in_node_id = true)
    (hwf : p.graph.wf = true) :
    (∃ s, p.add_timeline_track env track = .ok (env track) s
      ∧ mapGet s.timeline_track_indexes track.id
          = some p.save_state.timeline_tracks.length
      ∧ s.save_state.timeline_tracks
          = p.save_state.timeline_tracks ++ [track])
    ∧ ∃ pi, ProjectInterface.new env s0
        = some (pi, s0.timeline_tracks.flatMap env)
      ∧ pi.save_state = s0 := by
  refine ⟨?_, projectInterface_new_ok env s0⟩
  obtain ⟨g2, g3, _, _, _, _, _, hok⟩ :=
    add_timeline_track_eq env p track hfresh hmaster hwf
  exact ⟨_, hok, mapGet_insert_insert _ _ _ hfresh, rfl⟩

/-- C7 witness: adding `Track A` (all loads succeeding) to the empty project
and constructing a fresh interface from a two-track save state. -/
theorem add_and_new_collect_load_errors_witness :
    (mapContains p_empty.timeline_track_indexes trackA.id = false
      ∧ p_empty.graph.contains_node p_empty.master_track_mix_in_node_id = true
      ∧ p_empty.graph.wf = true)
    ∧ ((∃ s, p_empty.add_timeline_track env0 trackA = .ok (env0 trackA) s
        ∧ mapGet s.timeline_track_indexes trackA.id
            = some p_empty.save_state.timeline_tracks.length
        ∧ s.save_state.timeline_tracks
            = p_empty.save_state.timeline_tracks ++ [trackA])
      ∧ ∃ pi, ProjectInterface.new env0 { timeline_tracks := [trackA, trackB] }
          = some (pi, ([trackA, trackB] : List TimelineTrackSaveState).flatMap env0)
        ∧ pi.save_state = { timeline_tracks := [trackA, trackB] }) :=
  ⟨⟨by decide, by decide, by decide⟩,
   add_and_new_collect_load_errors env0 p_empty trackA
     { timeline_tracks := [trackA, trackB] }
     (by decide) (by decide) (by decide)⟩

end Meadowlark

